import Mathlib

/-!
Verification of the natural-language specification of
`ptri_camerautils` against a shallow embedding of
`src/CameraEmulation/TcpFrameProviders/ImageFileAsFrameSource.py`.

Conventions of the embedding:
  * bytes are `Nat`s; byte strings are `List Nat`; paths are `List Char`;
  * the TCP socket read side is modelled as a finite list of pending bytes
    together with a delivery schedule `sched : Nat -> Nat`: the i-th call to
    `recv_into` with request size `r` delivers `min (sched i + 1) r` bytes of
    the remaining stream (at least one byte per call whenever data is pending
    and `r >= 1`, as a real blocking `recv` does); an empty remainder models
    the peer having closed the connection (a zero-byte read);
  * wall-clock times are rationals; `time.sleep` is modelled by reporting the
    send time of a frame rather than by blocking;
  * fallible Python code returns `Option`/explicit result inductives, and a
    Python exception that the source does not catch is an explicit `exn`-style
    constructor carrying the mutated state.
-/

namespace CameraUtils

/-! ## Client frame reception (`ImageFileClient.get_frame`, lines 261-324)

The client sends a `get_frame` request and then reads a newline-terminated
JSON header followed by exactly `width*height*channels` raw payload bytes.
-/

/-- The header terminator byte `\n` (0x0A). -/
def NEWLINE : Nat := 10

/-- `MAX_HEADER_SIZE = 65536` from `get_frame` (line 265). -/
def MAX_HEADER_SIZE : Nat := 65536

/-- `BUFFER_SIZE = 1024` from `get_frame` (line 263). -/
def HEADER_BUFFER_SIZE : Nat := 1024

/-- How many bytes the `i`-th `socket.recv_into(buffer, readSize)` call
delivers: the transport schedule offers `sched i + 1` bytes (at least one, as
a blocking `recv` never returns zero bytes while the peer is open), capped by
the requested `readSize`.  The delivered chunk is
`pending.take (deliveredCount sched i readSize)`; fewer bytes arrive only when
the stream is exhausted (peer closed), which `List.take` handles implicitly. -/
def deliveredCount (sched : Nat → Nat) (i readSize : Nat) : Nat :=
  min (sched i + 1) readSize

/-- The request size of each header-loop read: `min(BUFFER_SIZE, chunk_size)`
(line 273). -/
def headerReadSize (chunkSize : Nat) : Nat :=
  min HEADER_BUFFER_SIZE chunkSize

/-- Python `chunk.find(b"\n")`: index of the first newline byte, if any. -/
def findNewlineIdx : List Nat → Option Nat
  | [] => none
  | b :: rest =>
    if b = NEWLINE then some 0 else (findNewlineIdx rest).map (fun i => i + 1)

/-- Result of the header-reading loop of `get_frame` (lines 267-292). -/
inductive HeaderReadResult where
  /-- newline found: accumulated header bytes (newline included), the bytes
  that arrived after the newline in the same chunk, the still-pending stream,
  and the next `recv` call index. -/
  | ok (headerBytes payloadStart pending : List Nat) (nextCall : Nat)
  /-- `ValueError("Header size exceeds maximum allowed size.")` (line 269). -/
  | headerSizeExceeded
  /-- `ConnectionError("Server closed connection.")` (line 277). -/
  | connectionClosed
  deriving DecidableEq

/-- The header-reading loop of `get_frame` (lines 267-292): before each read
the accumulated size is checked against `MAX_HEADER_SIZE`; each read requests
`min(BUFFER_SIZE, chunk_size)` bytes; a chunk without a newline is appended to
`headerBytes`; the first newline ends the header and everything after it in
the same chunk is kept as the start of the image payload.  Totality of this
definition is the loop-termination argument: every delivered chunk is
non-empty, so `headerBytes` strictly grows until the size guard fires. -/
def readHeaderLoop (chunkSize : Nat) (sched : Nat → Nat) (i : Nat)
    (headerBytes pending : List Nat) : HeaderReadResult :=
  if hbig : headerBytes.length > MAX_HEADER_SIZE then .headerSizeExceeded
  else if hz : (pending.take (deliveredCount sched i (headerReadSize chunkSize))).length = 0 then
    .connectionClosed
  else
    match findNewlineIdx (pending.take (deliveredCount sched i (headerReadSize chunkSize))) with
    | none =>
      readHeaderLoop chunkSize sched (i + 1)
        (headerBytes ++ pending.take (deliveredCount sched i (headerReadSize chunkSize)))
        (pending.drop (deliveredCount sched i (headerReadSize chunkSize)))
    | some idx =>
      .ok (headerBytes ++ (pending.take (deliveredCount sched i (headerReadSize chunkSize))).take (idx + 1))
        ((pending.take (deliveredCount sched i (headerReadSize chunkSize))).drop (idx + 1))
        (pending.drop (deliveredCount sched i (headerReadSize chunkSize))) (i + 1)
termination_by MAX_HEADER_SIZE + 1 - headerBytes.length
decreasing_by
  simp only [List.length_append, MAX_HEADER_SIZE] at *
  omega

/-- Result of the payload-reading loop of `get_frame` (lines 309-320). -/
inductive PayloadReadResult where
  | ok (data pending : List Nat) (nextCall : Nat)
  /-- `ConnectionError("Server closed connection while reading image data.")`. -/
  | connectionClosed
  deriving DecidableEq

/-- The payload-reading loop of `get_frame` (lines 309-320): starting from the
bytes retained after the header newline, keep requesting
`min(chunk_size, total_bytes - bytes_read)` bytes until `total_bytes` have
been accumulated. -/
def readPayloadLoop (chunkSize totalBytes : Nat) (sched : Nat → Nat) (i : Nat)
    (acc pending : List Nat) : PayloadReadResult :=
  if hlt : acc.length < totalBytes then
    if hz : (pending.take (deliveredCount sched i (min chunkSize (totalBytes - acc.length)))).length = 0 then
      .connectionClosed
    else
      readPayloadLoop chunkSize totalBytes sched (i + 1)
        (acc ++ pending.take (deliveredCount sched i (min chunkSize (totalBytes - acc.length))))
        (pending.drop (deliveredCount sched i (min chunkSize (totalBytes - acc.length))))
  else .ok acc pending i
termination_by totalBytes - acc.length
decreasing_by
  simp only [List.length_append] at *
  omega

/-- Overall result of the read phase of `get_frame`. -/
inductive FrameReadResult where
  | ok (headerBytes payload : List Nat)
  | headerSizeExceeded
  | connectionClosed
  /-- JSON parse / field errors on the header line. -/
  | headerInvalid
  /-- `numpy.reshape` fails when the accumulated byte count differs from
  `width*height*channels` (only possible when the retained prefix overruns). -/
  | reshapeMismatch
  deriving DecidableEq

/-- The read phase of `get_frame` (lines 261-324): read the header line, parse
it (JSON parsing of the header is the external collaborator `parseTotal`,
returning the declared `width*height*channels` byte count), then read exactly
that many payload bytes, the retained post-newline bytes first. -/
def getFrameRead (chunkSize : Nat) (parseTotal : List Nat → Option Nat)
    (sched : Nat → Nat) (stream : List Nat) : FrameReadResult :=
  match readHeaderLoop chunkSize sched 0 [] stream with
  | .headerSizeExceeded => .headerSizeExceeded
  | .connectionClosed => .connectionClosed
  | .ok headerBytes payloadStart pending i =>
    match parseTotal headerBytes with
    | none => .headerInvalid
    | some totalBytes =>
      match readPayloadLoop chunkSize totalBytes sched i payloadStart pending with
      | .connectionClosed => .connectionClosed
      | .ok data _ _ =>
        if data.length = totalBytes then .ok headerBytes data else .reshapeMismatch

/-! ## Pixel formats (`src/Core/PixelFormatEnum.py`) -/

/-- The `PixelFormatEnum` of `src/Core/PixelFormatEnum.py`. -/
inductive PixelFormatEnum where
  | BGR8 | RGB8 | MONO8 | BayerGR8 | BayerBG8 | BayerRG8 | BayerGB8 | UNKNOWN
  deriving DecidableEq

/-- The integer value of each enum member (`BGR8 = 0`, ..., `UNKNOWN = 7`). -/
def PixelFormatEnum.val : PixelFormatEnum → Nat
  | .BGR8 => 0
  | .RGB8 => 1
  | .MONO8 => 2
  | .BayerGR8 => 3
  | .BayerBG8 => 4
  | .BayerRG8 => 5
  | .BayerGB8 => 6
  | .UNKNOWN => 7

/-! ## Path helpers (collaborator `pathlib.Path`)

`pathlib.PurePath.name` is the final path component; `.suffix` is `name[i:]`
where `i` is the index of the last dot, provided `0 < i < len(name) - 1`, and
empty otherwise; `.stem` is the part of the name before that suffix. -/

/-- `pathlib.Path(...).name`: the final component of the path. -/
def fileName (p : List Char) : List Char :=
  (p.reverse.takeWhile (fun c => c != '/')).reverse

/-- Index of the last dot of a name (Python `name.rfind(".")`), if any. -/
def lastDotIdx (name : List Char) : Option Nat :=
  match name.reverse.findIdx? (fun c => c == '.') with
  | none => none
  | some j => some (name.length - 1 - j)

/-- `pathlib.Path(...).suffix`. -/
def pathSuffix (p : List Char) : List Char :=
  let name := fileName p
  match lastDotIdx name with
  | none => []
  | some i => if 0 < i ∧ i < name.length - 1 then name.drop i else []

/-- `pathlib.Path(...).stem`. -/
def pathStem (p : List Char) : List Char :=
  let name := fileName p
  match lastDotIdx name with
  | none => name
  | some i => if 0 < i ∧ i < name.length - 1 then name.take i else name

/-- Python `pattern in str`: substring containment. -/
def strContainsSub (s pat : List Char) : Bool :=
  s.tails.any (fun t => pat.isPrefixOf t)

/-! ## Image source sequencer
(`ImageFileServer.__get_image_file_name_generator`, lines 841-872, and
`__init_file_name_generator` / `__read_image_from_generator`, lines 730-839) -/

/-- One file that `os.walk` reaches under the root, in walk order.  `isFile`
records what `os.path.isfile` answers for it at that moment. -/
structure FileEntry where
  path : List Char
  isFile : Bool
  deriving DecidableEq

/-- `__get_image_file_name_generator` (lines 841-872): walk the tree and yield
every path that does not contain a skip pattern, is a file, and has suffix
`.jpg` or `.png` (case-sensitive).  The lazy generator is embedded as the list
of paths it would yield; the sequencer's cursor is the remaining list. -/
def imageFileNameGenerator (entries : List FileEntry) (skipPatterns : List (List Char)) :
    List (List Char) :=
  (entries.filter (fun e =>
    !(skipPatterns.any (fun pat => strContainsSub e.path pat)) &&
    e.isFile &&
    (pathSuffix e.path == ".jpg".toList || pathSuffix e.path == ".png".toList))).map
    (fun e => e.path)

/-- The decoded pixel array `np.array(PIL.Image.open(path))`: its `shape`
tuple and the flat `tobytes()` buffer. -/
structure DecodedImage where
  shape : List Nat
  data : List Nat

/-- A snapshot of the filesystem and of the external image decoder:
`rootIsDir` is `os.path.isdir(image_path_root)`, `entries` what `os.walk`
yields under the root, and `decode p = none` models `PIL.Image.open` raising. -/
structure Filesystem where
  rootIsDir : Bool
  entries : List FileEntry
  decode : List Char → Option DecodedImage

/-- A Python exception that the source does not catch. -/
inductive PyExn where
  /-- `StopIteration` escaping `__read_image_from_generator` (line 834). -/
  | stopIterationExn
  /-- `PIL.Image.open` / `np.array` failing on the current image (line 836). -/
  | decodeExn
  /-- a failing `assert`. -/
  | assertionFailed
  deriving DecidableEq

/-- The mutable state of an `ImageFileServer` (fields of `__init__`,
lines 429-467).  `gen` is the remaining tail of the lazy path generator
(`none` before `__init_file_name_generator` ran).  `imageShape` is the numpy
shape tuple, initially `(0, 0, 0)`. -/
structure ServerState where
  frameRate : ℚ
  repeatFlag : Bool
  port : Nat
  chunkSize : Nat
  gen : Option (List (List Char))
  currentImagePath : Option (List Char)
  imageShape : List Nat
  outputBuffer : Option (List Nat)
  stopRequested : Bool
  deriving DecidableEq

/-- `__set_server_stop_request_flag` (lines 740-746). -/
def setServerStopRequestFlag (s : ServerState) : ServerState :=
  { s with stopRequested := true }

/-- `__init_file_name_generator` (lines 730-738): fails (without touching the
generator) when the root is not a directory, otherwise rebuilds the generator
from the root.  The server passes no skip patterns (line 736). -/
def initFileNameGenerator (fs : Filesystem) (s : ServerState) : Bool × ServerState :=
  if fs.rootIsDir then (true, { s with gen := some (imageFileNameGenerator fs.entries []) })
  else (false, s)

/-- Result of `__read_image_from_generator`: either a normal return carrying
the Python `bool`, or an uncaught exception; both carry the mutated state. -/
inductive ReadImageResult where
  | ok (success : Bool) (s : ServerState)
  | exn (e : PyExn) (s : ServerState)
  deriving DecidableEq

/-- Lines 822 and 836-839: record the pulled path as current, then decode it
into the reusable output buffer and record its shape.  A decoding error
propagates (the source has no handler around `PIL.Image.open`). -/
def loadCurrentImage (fs : Filesystem) (s : ServerState) (p : List Char) : ReadImageResult :=
  let s1 := { s with currentImagePath := some p }
  match fs.decode p with
  | none => .exn .decodeExn s1
  | some img => .ok true { s1 with outputBuffer := some img.data, imageShape := img.shape }

/-- `__read_image_from_generator` (lines 809-839): pull the next path from the
generator; on exhaustion either set the stop flag and return `False`
(`repeat=False`) or rebuild the generator from the root and pull again
(`repeat=True`) -- a second `StopIteration` there is NOT caught and escapes.
The `Bool` returned by the inner `__init_file_name_generator` call is ignored
by the source (line 833). -/
def readImageFromGenerator (fs : Filesystem) (s : ServerState) : ReadImageResult :=
  match s.gen with
  | none => .exn .assertionFailed s
  | some (p :: rest) => loadCurrentImage fs { s with gen := some rest } p
  | some [] =>
    if s.repeatFlag = false then
      .ok false (setServerStopRequestFlag s)
    else
      let s1 := (initFileNameGenerator fs s).2
      match s1.gen with
      | none => .exn .assertionFailed s1
      | some [] => .exn .stopIterationExn s1
      | some (p :: rest) => loadCurrentImage fs { s1 with gen := some rest } p

/-- Outcome of `start_server`: a normal Boolean return or an uncaught
exception; `threadStarted` records whether the accept-loop thread was
created and started (lines 526-527). -/
inductive StartServerResult where
  | returned (value : Bool) (s : ServerState) (threadStarted : Bool)
  | raised (e : PyExn) (s : ServerState)
  deriving DecidableEq

/-- `start_server` (lines 501-528): initialize the generator, pre-load the
first image, and only then start the accept-loop thread. -/
def startServer (fs : Filesystem) (s : ServerState) : StartServerResult :=
  match initFileNameGenerator fs s with
  | (false, s1) => .returned false (setServerStopRequestFlag s1) false
  | (true, s1) =>
    match readImageFromGenerator fs s1 with
    | .exn e s2 => .raised e s2
    | .ok false s2 => .returned false (setServerStopRequestFlag s2) false
    | .ok true s2 => .returned true s2 true

/-- Outcome of a sequence of advance operations. -/
inductive AdvanceListResult where
  | ok (results : List Bool) (s : ServerState)
  | exn (e : PyExn) (s : ServerState)
  deriving DecidableEq

/-- `n` consecutive calls to `__read_image_from_generator` (as issued by
`request_next_image` / the per-connection `next_image` handler), collecting
each call's Boolean result; an uncaught exception aborts the sequence. -/
def advanceN (fs : Filesystem) (s : ServerState) : Nat → AdvanceListResult
  | 0 => .ok [] s
  | n + 1 =>
    match readImageFromGenerator fs s with
    | .exn e s1 => .exn e s1
    | .ok b s1 =>
      match advanceN fs s1 n with
      | .exn e s2 => .exn e s2
      | .ok bs s2 => .ok (b :: bs) s2

/-! ## Frame header and server info construction
(`__write_image_and_header_to_client`, lines 767-807, and
`__write_server_info_to_client`, lines 748-765) -/

/-- The `ImageFileHeader` named tuple (lines 23-28). -/
structure ImageFileHeader where
  width : Nat
  height : Nat
  channels : Nat
  channel_format : String
  image_file_name : List Char
  deriving DecidableEq

/-- The `ImageServerInfo` named tuple (lines 30-37); `camera_pixel_format` is
sent as the enum's integer value (line 758). -/
structure ImageServerInfo where
  fps : ℚ
  image_width : Nat
  image_height : Nat
  camera_pixel_format : Nat
  image_file_name : List Char
  camera_name : String
  server_port : Nat
  deriving DecidableEq

/-- The chunked payload writing loop (lines 802-807): chunk `k` is
`output_buffer[k*chunk_size : (k+1)*chunk_size]`, the last chunk possibly
shorter.  (With `chunk_size = 0` the source's loop would never advance; the
embedding yields no chunks in that degenerate case.) -/
def sendChunks (chunkSize : Nat) (buf : List Nat) : List (List Nat) :=
  (List.range ((buf.length + chunkSize - 1) / chunkSize)).map
    (fun k => (buf.drop (k * chunkSize)).take chunkSize)

/-- `__write_image_and_header_to_client` (lines 767-807): requires a loaded
image (both asserts, lines 777-778, modelled as `none`); emits a header whose
`channel_format` is the literal `"RGB8"` (line 791) and whose dimensions come
from the recorded numpy shape (`channels` is `shape[2]` when the shape has
three axes, else 1), followed by the buffer in bounded chunks. -/
def writeImageAndHeaderToClient (s : ServerState) : Option (ImageFileHeader × List (List Nat)) :=
  match s.outputBuffer, s.currentImagePath with
  | some buf, some p =>
    some ({ width := s.imageShape.getD 1 0
            height := s.imageShape.getD 0 0
            channels := if s.imageShape.length = 3 then s.imageShape.getD 2 0 else 1
            channel_format := "RGB8"
            image_file_name := fileName p },
          sendChunks s.chunkSize buf)
  | _, _ => none

/-- `__write_server_info_to_client` (lines 748-765): `camera_pixel_format` is
always `PixelFormatEnum.RGB8.value` (line 758); the file name is the current
path's stem, or `"No Image Loaded"` when nothing is loaded. -/
def writeServerInfoToClient (s : ServerState) : ImageServerInfo :=
  { fps := s.frameRate
    image_width := s.imageShape.getD 1 0
    image_height := s.imageShape.getD 0 0
    camera_pixel_format := PixelFormatEnum.val .RGB8
    image_file_name :=
      match s.currentImagePath with
      | some p => pathStem p
      | none => "No Image Loaded".toList
    camera_name := "ImageFileServer"
    server_port := s.port }

/-! ## Per-connection request handling
(`__handle_client_connection`, lines 628-694, and `__server_loop`,
lines 565-626) -/

/-- A parsed client request line (`_ClientMessage`, lines 39-40). -/
structure ClientMessage where
  message : String
  deriving DecidableEq

/-- One iteration's input to the per-connection loop: either a parsed request
(with the `time.time()` value `t` observed while handling it) or one of the
failure events the loop catches. -/
inductive ConnEvent where
  /-- a request line was read and parsed. -/
  | request (msg : ClientMessage) (t : ℚ)
  /-- `__read_client_request` returned `None`: the client closed (line 647). -/
  | clientClosedConn
  /-- `socket.timeout` while waiting for a request (line 683): loop continues. -/
  | readTimeout
  /-- `BrokenPipeError` (line 686): loop breaks. -/
  | brokenPipe
  /-- `ConnectionResetError` (line 689): loop breaks. -/
  | connectionReset
  /-- any other exception (line 692): loop breaks. -/
  | otherException
  deriving DecidableEq

/-- Outcome of one iteration of the per-connection loop: either the loop
continues with the given server state and pacing clock (`sentFrameAt` is the
time at which a frame finished being paced and was written, when one was),
or the loop breaks and the connection ends. -/
inductive StepOutcome where
  | next (s : ServerState) (lastFrameTime : ℚ) (sentFrameAt : Option ℚ)
  | stop (s : ServerState)
  deriving DecidableEq

/-- Line 638: the pacing clock starts one full frame interval in the past so
that the first frame is sent immediately. -/
def initialLastFrameTime (connTime : ℚ) (s : ServerState) : ℚ :=
  connTime - 1 / s.frameRate

/-- One iteration of `__handle_client_connection` (lines 640-694).
For `get_frame` (lines 650-662): the elapsed time since `last_frame_time` is
compared with `1/frame_rate` and the send is delayed by the remainder --
note the source never assigns `last_frame_time` after sending a frame, so the
returned pacing clock is unchanged in this branch.  `get_server_info`
(lines 664-668) and a successful `next_image` (lines 670-677) reset the
pacing clock to the current time.  A failed `next_image` advance continues
without resetting; an uncaught exception in a handler breaks the loop. -/
def handleClientStep (fs : Filesystem) (s : ServerState) (lastFrameTime : ℚ)
    (e : ConnEvent) : StepOutcome :=
  match e with
  | .clientClosedConn => .stop s
  | .readTimeout => .next s lastFrameTime none
  | .brokenPipe => .stop s
  | .connectionReset => .stop s
  | .otherException => .stop s
  | .request msg t =>
    if msg.message = "get_frame" then
      let frameInterval := 1 / s.frameRate
      let timeSinceLastFrame := t - lastFrameTime
      let sendTime :=
        if timeSinceLastFrame < frameInterval then t + (frameInterval - timeSinceLastFrame)
        else t
      match writeImageAndHeaderToClient s with
      | none => .stop s
      | some _ => .next s lastFrameTime (some sendTime)
    else if msg.message = "get_server_info" then
      .next s t none
    else if msg.message = "next_image" then
      match readImageFromGenerator fs s with
      | .ok true s1 => .next s1 t none
      | .ok false s1 => .next s1 lastFrameTime none
      | .exn _ s1 => .stop s1
    else
      .next s lastFrameTime none

/-- The bind/listen phase of `__server_loop` (lines 567-583): an `OSError`
from `bind`/`listen` sets the global stop flag and the accept loop never
runs; otherwise the state is untouched and the loop starts. -/
def serverLoopBindPhase (bindOk : Bool) (s : ServerState) : ServerState × Bool :=
  if bindOk then (s, true) else (setServerStopRequestFlag s, false)

/-! ## Client connection lifecycle
(`ImageFileClient`, lines 42-234) -/

/-- Errors the lifecycle operations return as values. -/
inductive ClientCallError where
  /-- `RuntimeError("Streaming already started.")`. -/
  | streamingAlreadyStarted
  /-- `RuntimeError("Socket already connected.")`. -/
  | socketAlreadyConnected
  /-- the `socket.connect` call raised. -/
  | connectFailed
  /-- `RuntimeError("Streaming not started.")`. -/
  | streamingNotStarted
  deriving DecidableEq

/-- The mutable state of an `ImageFileClient` (fields of `__init__`,
lines 61-73).  `socketOpen` is `__socket is not None`. -/
structure ClientState where
  streaming : Bool
  socketOpen : Bool
  fps : ℚ
  imageWidth : Nat
  imageHeight : Nat
  cameraPixelFormat : PixelFormatEnum
  lastFrameTime : ℚ
  deriving DecidableEq

/-- `__close_socket` (lines 353-363). -/
def closeSocket (c : ClientState) : ClientState :=
  { c with socketOpen := false }

/-- `deinitialize_camera` (lines 145-159): closes the socket and clears the
cached metadata -- the `__streaming` flag is NOT touched by the source. -/
def deinitCamera (c : ClientState) : ClientState :=
  { closeSocket c with
    fps := 0
    imageWidth := 0
    imageHeight := 0
    cameraPixelFormat := .UNKNOWN
    lastFrameTime := 0 }

/-- `start_camera_streaming` (lines 161-186): rejected while streaming or
while a socket exists; otherwise opens a socket and connects
(`connectSucceeds` is whether `socket.connect` succeeds); on connect failure
the fresh socket is closed again and the error returned. -/
def startCameraStreaming (c : ClientState) (connectSucceeds : Bool) :
    Option ClientCallError × ClientState :=
  if c.streaming then (some .streamingAlreadyStarted, c)
  else if c.socketOpen then (some .socketAlreadyConnected, c)
  else if connectSucceeds then (none, { c with socketOpen := true, streaming := true })
  else (some .connectFailed, closeSocket { c with socketOpen := true })

/-- `stop_camera_streaming` (lines 218-234): rejected when not streaming;
otherwise clears the streaming flag and closes the socket. -/
def stopCameraStreaming (c : ClientState) : Option ClientCallError × ClientState :=
  if !c.streaming then (some .streamingNotStarted, c)
  else (none, closeSocket { c with streaming := false })

/-! ## Concrete fixtures (used by witnesses and failing-input evaluations) -/

/-- A root with two matching images (`.jpg`, `.png`) and one filtered file;
every image decodes to a 1x2 RGB array. -/
def fsTwoImages : Filesystem :=
  { rootIsDir := true
    entries := [{ path := "root/a.jpg".toList, isFile := true },
      { path := "root/b.png".toList, isFile := true },
      { path := "root/notes.txt".toList, isFile := true }]
    decode := fun _ => some { shape := [1, 2, 3], data := [7, 7, 7, 7, 7, 7] } }

/-- A server over `fsTwoImages` right after `__init_file_name_generator`,
with `repeat=False`. -/
def srvTwoNoRepeat : ServerState :=
  { frameRate := 10
    repeatFlag := false
    port := 9100
    chunkSize := 1024
    gen := some (imageFileNameGenerator fsTwoImages.entries [])
    currentImagePath := none
    imageShape := [0, 0, 0]
    outputBuffer := none
    stopRequested := false }

/-- The same server with `repeat=True`. -/
def srvTwoRepeat : ServerState :=
  { srvTwoNoRepeat with repeatFlag := true }

/-- A root directory that exists but contains no matching image. -/
def fsEmptyRoot : Filesystem :=
  { rootIsDir := true
    entries := []
    decode := fun _ => none }

/-- A root with one matching image that fails to decode. -/
def fsBadImage : Filesystem :=
  { rootIsDir := true
    entries := [{ path := "root/a.jpg".toList, isFile := true }]
    decode := fun _ => none }

/-- A freshly constructed server (nothing initialized), `repeat=True`. -/
def srvFreshRepeat : ServerState :=
  { frameRate := 30
    repeatFlag := true
    port := 9000
    chunkSize := 1024
    gen := none
    currentImagePath := none
    imageShape := [0, 0, 0]
    outputBuffer := none
    stopRequested := false }

/-- A freshly constructed server, `repeat=False`. -/
def srvFreshNoRepeat : ServerState :=
  { srvFreshRepeat with repeatFlag := false }

/-- A root with one matching image that decodes to a 1x2 RGB array. -/
def fsOneImage : Filesystem :=
  { rootIsDir := true
    entries := [{ path := "root/a.jpg".toList, isFile := true }]
    decode := fun _ => some { shape := [1, 2, 3], data := [7, 7, 7, 7, 7, 7] } }

/-- A server with frame_rate 1 that has loaded the image of `fsOneImage` and
exhausted its generator. -/
def srvPaced : ServerState :=
  { frameRate := 1
    repeatFlag := true
    port := 9000
    chunkSize := 6
    gen := some []
    currentImagePath := some "root/a.jpg".toList
    imageShape := [1, 2, 3]
    outputBuffer := some [7, 7, 7, 7, 7, 7]
    stopRequested := false }

/-- `srvPaced` with one path still pending in the generator. -/
def srvReady : ServerState :=
  { srvPaced with gen := some ["root/a.jpg".toList] }

/-- The state `srvReady` reaches after one successful advance. -/
def srvAfterNext : ServerState :=
  { srvPaced with gen := some [] }

/-- A client in the `Connected` state (streaming, socket open). -/
def connectedClient : ClientState :=
  { streaming := true
    socketOpen := true
    fps := 30
    imageWidth := 4
    imageHeight := 3
    cameraPixelFormat := .RGB8
    lastFrameTime := 5 }

/-! ## Reassembly lemmas (towards C4 and C8) -/

theorem findNewlineIdx_eq_none {l : List Nat} (h : NEWLINE ∉ l) :
    findNewlineIdx l = none := by
  induction l with
  | nil => rfl
  | cons b rest ih =>
    have hb : b ≠ NEWLINE := fun hbeq => h (hbeq ▸ List.mem_cons_self b rest)
    have hr : findNewlineIdx rest = none := ih (fun hm => h (List.mem_cons_of_mem b hm))
    simp [findNewlineIdx, hb, hr]

theorem findNewlineIdx_append {l : List Nat} (t : List Nat) (h : NEWLINE ∉ l) :
    findNewlineIdx (l ++ NEWLINE :: t) = some l.length := by
  induction l with
  | nil => simp [findNewlineIdx, NEWLINE]
  | cons b rest ih =>
    have hb : b ≠ NEWLINE := fun hbeq => h (hbeq ▸ List.mem_cons_self b rest)
    have hr := ih (fun hm => h (List.mem_cons_of_mem b hm))
    simp [findNewlineIdx, hb, hr]

theorem take_drop_glue (n : Nat) (l t : List Nat) : l.take n ++ (l.drop n ++ t) = l ++ t := by
  rw [← List.append_assoc, List.take_append_drop]

/-- Whatever the transport schedule, the header loop started on a stream whose
first newline ends a header line of at most `MAX_HEADER_SIZE` bytes returns
exactly that header line (newline included) and retains everything it read
past the newline as the start of the payload. -/
theorem readHeaderLoop_found (chunkSize : Nat) (sched : Nat → Nat) (hcs : 1 ≤ chunkSize) :
    ∀ (m : Nat) (hl acc tail : List Nat) (i : Nat), hl.length = m → NEWLINE ∉ hl →
      acc.length + hl.length ≤ MAX_HEADER_SIZE →
      ∃ ps rest i2,
        readHeaderLoop chunkSize sched i acc (hl ++ NEWLINE :: tail) =
          .ok (acc ++ hl ++ [NEWLINE]) ps rest i2 ∧ ps ++ rest = tail := by
  intro m
  induction m using Nat.strong_induction_on with
  | _ m ih =>
  intro hl acc tail i hm hnn hsz
  have hn1 : 1 ≤ deliveredCount sched i (headerReadSize chunkSize) := by
    simp only [deliveredCount, headerReadSize, HEADER_BUFFER_SIZE]
    omega
  rcases le_or_lt (deliveredCount sched i (headerReadSize chunkSize)) hl.length with hA | hB
  · -- the delivered chunk stays inside the header line: no newline yet, recurse
    have hchunk : (hl ++ NEWLINE :: tail).take (deliveredCount sched i (headerReadSize chunkSize)) =
        hl.take (deliveredCount sched i (headerReadSize chunkSize)) :=
      List.take_append_of_le_length hA
    have hdrop : (hl ++ NEWLINE :: tail).drop (deliveredCount sched i (headerReadSize chunkSize)) =
        hl.drop (deliveredCount sched i (headerReadSize chunkSize)) ++ NEWLINE :: tail :=
      List.drop_append_of_le_length hA
    have hlentake : (hl.take (deliveredCount sched i (headerReadSize chunkSize))).length =
        deliveredCount sched i (headerReadSize chunkSize) := by
      rw [List.length_take]; omega
    have hfind : findNewlineIdx ((hl ++ NEWLINE :: tail).take
        (deliveredCount sched i (headerReadSize chunkSize))) = none := by
      rw [hchunk]
      exact findNewlineIdx_eq_none (fun hmem => hnn (List.take_subset _ _ hmem))
    obtain ⟨ps, rest, i2, heq, hps⟩ :=
      ih (hl.length - deliveredCount sched i (headerReadSize chunkSize)) (by omega)
        (hl.drop (deliveredCount sched i (headerReadSize chunkSize)))
        (acc ++ hl.take (deliveredCount sched i (headerReadSize chunkSize))) tail (i + 1)
        (by rw [List.length_drop])
        (fun hmem => hnn (List.drop_subset _ _ hmem))
        (by rw [List.length_append, hlentake, List.length_drop]; omega)
    refine ⟨ps, rest, i2, ?_, hps⟩
    rw [readHeaderLoop, dif_neg (by omega : ¬ acc.length > MAX_HEADER_SIZE),
      dif_neg (by rw [hchunk, hlentake]; omega), hfind]
    show readHeaderLoop chunkSize sched (i + 1)
        (acc ++ (hl ++ NEWLINE :: tail).take (deliveredCount sched i (headerReadSize chunkSize)))
        ((hl ++ NEWLINE :: tail).drop (deliveredCount sched i (headerReadSize chunkSize))) =
      .ok (acc ++ hl ++ [NEWLINE]) ps rest i2
    rw [hchunk, hdrop, heq]
    simp only [List.append_assoc, take_drop_glue]
  · -- the newline is inside the delivered chunk: the loop returns here
    refine ⟨tail.take (deliveredCount sched i (headerReadSize chunkSize) - hl.length - 1),
      tail.drop (deliveredCount sched i (headerReadSize chunkSize) - hl.length - 1), i + 1, ?_, ?_⟩
    · have hchunk : (hl ++ NEWLINE :: tail).take (deliveredCount sched i (headerReadSize chunkSize)) =
          hl ++ NEWLINE :: tail.take (deliveredCount sched i (headerReadSize chunkSize) - hl.length - 1) := by
        rw [List.take_append_eq_append_take, List.take_of_length_le (by omega)]
        congr 1
        have hrw : deliveredCount sched i (headerReadSize chunkSize) - hl.length =
            (deliveredCount sched i (headerReadSize chunkSize) - hl.length - 1) + 1 := by omega
        rw [hrw, List.take_succ_cons]
        simp
      have hfind : findNewlineIdx ((hl ++ NEWLINE :: tail).take
          (deliveredCount sched i (headerReadSize chunkSize))) = some hl.length := by
        rw [hchunk]
        exact findNewlineIdx_append _ hnn
      have htake : (hl ++ NEWLINE :: tail.take (deliveredCount sched i (headerReadSize chunkSize) - hl.length - 1)).take
          (hl.length + 1) = hl ++ [NEWLINE] := by
        rw [List.take_append_eq_append_take, List.take_of_length_le (by omega),
          Nat.add_sub_cancel_left, List.take_succ_cons, List.take_zero]
      have hdrop1 : (hl ++ NEWLINE :: tail.take (deliveredCount sched i (headerReadSize chunkSize) - hl.length - 1)).drop
          (hl.length + 1) = tail.take (deliveredCount sched i (headerReadSize chunkSize) - hl.length - 1) := by
        rw [List.drop_append_eq_append_drop, List.drop_eq_nil_of_le (by omega),
          Nat.add_sub_cancel_left, List.drop_succ_cons, List.drop_zero, List.nil_append]
      have hdrop2 : (hl ++ NEWLINE :: tail).drop (deliveredCount sched i (headerReadSize chunkSize)) =
          tail.drop (deliveredCount sched i (headerReadSize chunkSize) - hl.length - 1) := by
        rw [List.drop_append_eq_append_drop, List.drop_eq_nil_of_le (by omega), List.nil_append]
        have hrw : deliveredCount sched i (headerReadSize chunkSize) - hl.length =
            (deliveredCount sched i (headerReadSize chunkSize) - hl.length - 1) + 1 := by omega
        rw [hrw, List.drop_succ_cons]
        simp
      rw [readHeaderLoop, dif_neg (by omega : ¬ acc.length > MAX_HEADER_SIZE),
        dif_neg (by intro h0; rw [hchunk] at h0; simp at h0), hfind]
      show HeaderReadResult.ok
          (acc ++ ((hl ++ NEWLINE :: tail).take (deliveredCount sched i (headerReadSize chunkSize))).take (hl.length + 1))
          (((hl ++ NEWLINE :: tail).take (deliveredCount sched i (headerReadSize chunkSize))).drop (hl.length + 1))
          ((hl ++ NEWLINE :: tail).drop (deliveredCount sched i (headerReadSize chunkSize))) (i + 1) = _
      rw [hchunk, htake, hdrop1, hdrop2]
      simp [List.append_assoc]
    · exact List.take_append_drop _ tail

/-- Whatever the transport schedule, the payload loop accumulates exactly
`totalBytes` bytes whenever at least `totalBytes - acc.length` bytes are still
pending: it returns the retained start plus the next pending bytes, never
over- nor under-reading. -/
theorem readPayloadLoop_exact (chunkSize : Nat) (sched : Nat → Nat) (hcs : 1 ≤ chunkSize)
    (totalBytes : Nat) :
    ∀ (m : Nat) (acc pending : List Nat) (i : Nat), totalBytes - acc.length = m →
      acc.length ≤ totalBytes → totalBytes - acc.length ≤ pending.length →
      ∃ rest i2, readPayloadLoop chunkSize totalBytes sched i acc pending =
        .ok (acc ++ pending.take (totalBytes - acc.length)) rest i2 := by
  intro m
  induction m using Nat.strong_induction_on with
  | _ m ih =>
  intro acc pending i hm hle hpend
  rcases Nat.eq_or_lt_of_le hle with heq | hlt
  · -- already complete: the loop exits immediately
    refine ⟨pending, i, ?_⟩
    rw [readPayloadLoop, dif_neg (by omega : ¬ acc.length < totalBytes)]
    rw [heq, Nat.sub_self, List.take_zero, List.append_nil]
  · -- at least one more byte is needed and will be delivered
    have hn1 : 1 ≤ deliveredCount sched i (min chunkSize (totalBytes - acc.length)) := by
      simp only [deliveredCount]
      omega
    have hncap : deliveredCount sched i (min chunkSize (totalBytes - acc.length)) ≤
        totalBytes - acc.length := by
      simp only [deliveredCount]
      omega
    have hlentake : (pending.take (deliveredCount sched i (min chunkSize (totalBytes - acc.length)))).length =
        deliveredCount sched i (min chunkSize (totalBytes - acc.length)) := by
      rw [List.length_take]
      omega
    obtain ⟨rest, i2, heq2⟩ :=
      ih (totalBytes - (acc.length + deliveredCount sched i (min chunkSize (totalBytes - acc.length))))
        (by omega)
        (acc ++ pending.take (deliveredCount sched i (min chunkSize (totalBytes - acc.length))))
        (pending.drop (deliveredCount sched i (min chunkSize (totalBytes - acc.length))))
        (i + 1)
        (by rw [List.length_append, hlentake])
        (by rw [List.length_append, hlentake]; omega)
        (by rw [List.length_append, hlentake, List.length_drop]; omega)
    refine ⟨rest, i2, ?_⟩
    rw [readPayloadLoop, dif_pos hlt, dif_neg (by rw [hlentake]; omega), heq2,
      List.length_append, hlentake]
    have hsub : totalBytes - (acc.length + deliveredCount sched i (min chunkSize (totalBytes - acc.length))) =
        totalBytes - acc.length - deliveredCount sched i (min chunkSize (totalBytes - acc.length)) := by
      omega
    rw [List.append_assoc, hsub, ← List.take_add]
    have hfill : deliveredCount sched i (min chunkSize (totalBytes - acc.length)) +
        (totalBytes - acc.length - deliveredCount sched i (min chunkSize (totalBytes - acc.length))) =
        totalBytes - acc.length := by
      omega
    rw [hfill]

/-- If the stream never contains a newline and holds more than
`MAX_HEADER_SIZE` bytes, the header loop reaches the size guard and rejects
the header (rather than reading forever or reporting a different error). -/
theorem readHeaderLoop_oversized (chunkSize : Nat) (sched : Nat → Nat) (hcs : 1 ≤ chunkSize) :
    ∀ (m : Nat) (acc pending : List Nat) (i : Nat), MAX_HEADER_SIZE + 1 - acc.length = m →
      (∀ b ∈ pending, b ≠ NEWLINE) → MAX_HEADER_SIZE < acc.length + pending.length →
      readHeaderLoop chunkSize sched i acc pending = .headerSizeExceeded := by
  intro m
  induction m using Nat.strong_induction_on with
  | _ m ih =>
  intro acc pending i hm hnn hsz
  rcases Nat.lt_or_ge MAX_HEADER_SIZE acc.length with hbig | hsmall
  · rw [readHeaderLoop, dif_pos hbig]
  · have hn1 : 1 ≤ deliveredCount sched i (headerReadSize chunkSize) := by
      simp only [deliveredCount, headerReadSize, HEADER_BUFFER_SIZE]
      omega
    have hpendpos : 1 ≤ pending.length := by omega
    have hlentake : 1 ≤ (pending.take (deliveredCount sched i (headerReadSize chunkSize))).length := by
      rw [List.length_take]
      omega
    have hfind : findNewlineIdx (pending.take (deliveredCount sched i (headerReadSize chunkSize))) = none :=
      findNewlineIdx_eq_none (fun hmem => hnn _ (List.take_subset _ _ hmem) rfl)
    rw [readHeaderLoop, dif_neg (by omega : ¬ acc.length > MAX_HEADER_SIZE),
      dif_neg (by omega), hfind]
    show readHeaderLoop chunkSize sched (i + 1)
        (acc ++ pending.take (deliveredCount sched i (headerReadSize chunkSize)))
        (pending.drop (deliveredCount sched i (headerReadSize chunkSize))) = .headerSizeExceeded
    refine ih (MAX_HEADER_SIZE + 1 - (acc ++ pending.take (deliveredCount sched i (headerReadSize chunkSize))).length)
      (by rw [List.length_append]; omega) _ _ (i + 1) rfl
      (fun b hb => hnn b (List.drop_subset _ _ hb)) ?_
    rw [List.length_append, List.length_take, List.length_drop]
    omega

/-- C4: for every valid header line followed by exactly
`width*height*channels` payload bytes, and for every way the transport splits
the byte stream into chunks (the delivery schedule `sched` ranges over all
split points, including a boundary exactly on the header's newline, one byte
before it, and one byte after it), `get_frame` reassembles the same header
and the same payload: bytes received in the same chunk as the trailing
newline are retained as the start of the payload, and exactly
`width*height*channels` payload bytes are accumulated, never more and never
fewer. -/
theorem getFrameRead_reassembles_exactly (chunkSize : Nat) (parseTotal : List Nat → Option Nat)
    (sched : Nat → Nat) (hl payload : List Nat)
    (hcs : 1 ≤ chunkSize) (hnn : NEWLINE ∉ hl) (hsz : hl.length ≤ MAX_HEADER_SIZE)
    (hparse : parseTotal (hl ++ [NEWLINE]) = some payload.length) :
    getFrameRead chunkSize parseTotal sched (hl ++ NEWLINE :: payload) =
      .ok (hl ++ [NEWLINE]) payload := by
  obtain ⟨ps, rest, i2, hloop, hps⟩ :=
    readHeaderLoop_found chunkSize sched hcs hl.length hl [] payload 0 rfl hnn (by simpa)
  have hpslen : ps.length ≤ payload.length := by
    rw [← hps, List.length_append]
    omega
  have hrest : payload.length - ps.length = rest.length := by
    rw [← hps, List.length_append]
    omega
  obtain ⟨rest2, i3, hpay⟩ :=
    readPayloadLoop_exact chunkSize sched hcs payload.length (payload.length - ps.length)
      ps rest i2 rfl hpslen (by omega)
  have hpay2 : readPayloadLoop chunkSize payload.length sched i2 ps rest =
      .ok payload rest2 i3 := by
    rw [hpay, hrest, List.take_length, hps]
  rw [List.nil_append] at hloop
  simp only [getFrameRead, hloop, hparse, hpay2, eq_self_iff_true, if_true]

theorem getFrameRead_reassembles_exactly_witness :
    (1 ≤ 5 ∧ NEWLINE ∉ [104, 105] ∧ ([104, 105] : List Nat).length ≤ MAX_HEADER_SIZE ∧
      (fun hb => if hb = [104, 105, NEWLINE] then some 6 else none)
        (([104, 105] : List Nat) ++ [NEWLINE]) = some ([1, 2, 3, 4, 5, 6] : List Nat).length) ∧
    getFrameRead 5 (fun hb => if hb = [104, 105, NEWLINE] then some 6 else none)
      (fun _ => 1) ([104, 105] ++ NEWLINE :: [1, 2, 3, 4, 5, 6]) =
      .ok ([104, 105] ++ [NEWLINE]) [1, 2, 3, 4, 5, 6] :=
  ⟨⟨by decide, by decide, by decide, by decide⟩,
    getFrameRead_reassembles_exactly 5 _ _ _ _ (by decide) (by decide) (by decide) (by decide)⟩

/-- C8: on a stream in which no newline appears (within, in particular, the
maximum header size), the header-read loop of `get_frame` does not loop
forever -- it is a total function, and once the stream offers more than
`MAX_HEADER_SIZE` bytes it returns the protocol error `ValueError("Header
size exceeds maximum allowed size.")` rather than retrying or reporting
anything else. -/
theorem getFrame_oversized_header_rejected (chunkSize : Nat) (sched : Nat → Nat)
    (stream : List Nat) (hcs : 1 ≤ chunkSize) (hnn : ∀ b ∈ stream, b ≠ NEWLINE)
    (hlen : MAX_HEADER_SIZE < stream.length) :
    readHeaderLoop chunkSize sched 0 [] stream = .headerSizeExceeded ∧
    ∀ parseTotal, getFrameRead chunkSize parseTotal sched stream = .headerSizeExceeded := by
  have h1 : readHeaderLoop chunkSize sched 0 [] stream = .headerSizeExceeded :=
    readHeaderLoop_oversized chunkSize sched hcs (MAX_HEADER_SIZE + 1) [] stream 0 rfl hnn
      (by simpa)
  exact ⟨h1, fun parseTotal => by simp only [getFrameRead, h1]⟩

theorem getFrame_oversized_header_rejected_witness :
    (1 ≤ 4 ∧ (∀ b ∈ List.replicate 65537 7, b ≠ NEWLINE) ∧
      MAX_HEADER_SIZE < (List.replicate 65537 7).length) ∧
    readHeaderLoop 4 (fun _ => 0) 0 [] (List.replicate 65537 7) = .headerSizeExceeded := by
  have hnn : ∀ b ∈ List.replicate 65537 7, b ≠ NEWLINE := by
    intro b hb
    rw [List.mem_replicate] at hb
    rw [hb.2]
    decide
  have hlen : MAX_HEADER_SIZE < (List.replicate 65537 7).length := by
    rw [List.length_replicate]
    decide
  exact ⟨⟨by decide, hnn, hlen⟩,
    (getFrame_oversized_header_rejected 4 (fun _ => 0) (List.replicate 65537 7)
      (by decide) hnn hlen).1⟩

/-! ## Sequencer advance lemmas (towards C5 and C6) -/

theorem advanceN_succ (fs : Filesystem) (s : ServerState) (n : Nat) :
    advanceN fs s (n + 1) =
      match readImageFromGenerator fs s with
      | .exn e s1 => .exn e s1
      | .ok b s1 =>
        match advanceN fs s1 n with
        | .exn e s2 => .exn e s2
        | .ok bs s2 => .ok (b :: bs) s2 := rfl

/-- Unfolding one advance whose `__read_image_from_generator` call returns
normally. -/
theorem advanceN_succ_ok (fs : Filesystem) (s s1 : ServerState) (n : Nat) (b : Bool)
    (h : readImageFromGenerator fs s = .ok b s1) :
    advanceN fs s (n + 1) =
      match advanceN fs s1 n with
      | .exn e s2 => .exn e s2
      | .ok bs s2 => .ok (b :: bs) s2 := by
  rw [advanceN_succ, h]

/-- Pulling from a non-exhausted generator loads the head path. -/
theorem readImage_cons (fs : Filesystem) (s : ServerState) (p : List Char)
    (rest : List (List Char)) (hgen : s.gen = some (p :: rest)) (img : DecodedImage)
    (hdec : fs.decode p = some img) :
    readImageFromGenerator fs s = .ok true
      { s with
        gen := some rest
        currentImagePath := some p
        outputBuffer := some img.data
        imageShape := img.shape } := by
  simp only [readImageFromGenerator, hgen, loadCurrentImage, hdec]

/-- An exhausted generator with `repeat=False` sets the stop flag and fails. -/
theorem readImage_exhausted_noRepeat (fs : Filesystem) (s : ServerState)
    (hgen : s.gen = some []) (hrep : s.repeatFlag = false) :
    readImageFromGenerator fs s = .ok false (setServerStopRequestFlag s) := by
  simp [readImageFromGenerator, hgen, hrep]

/-- An exhausted generator with `repeat=True` rebuilds the walk from the root
and pulls its first element again. -/
theorem readImage_exhausted_repeat (fs : Filesystem) (s : ServerState)
    (hgen : s.gen = some []) (hrep : s.repeatFlag = true) (hroot : fs.rootIsDir = true)
    (p0 : List Char) (tail0 : List (List Char))
    (hfull : imageFileNameGenerator fs.entries [] = p0 :: tail0)
    (img : DecodedImage) (hdec : fs.decode p0 = some img) :
    readImageFromGenerator fs s = .ok true
      { s with
        gen := some tail0
        currentImagePath := some p0
        outputBuffer := some img.data
        imageShape := img.shape } := by
  simp [readImageFromGenerator, hgen, hrep, initFileNameGenerator, hroot,
    hfull, loadCurrentImage, hdec]

theorem advanceN_exhaust_noRepeat (fs : Filesystem) :
    ∀ (l : List (List Char)) (s : ServerState), s.gen = some l → s.repeatFlag = false →
      (∀ p ∈ l, (fs.decode p).isSome) →
      ∃ s1, advanceN fs s (l.length + 1) =
        .ok (List.replicate l.length true ++ [false]) s1 ∧ s1.stopRequested = true := by
  intro l
  induction l with
  | nil =>
    intro s hgen hrep _
    refine ⟨setServerStopRequestFlag s, ?_, rfl⟩
    show advanceN fs s (0 + 1) = _
    rw [advanceN_succ, readImage_exhausted_noRepeat fs s hgen hrep]
    rfl
  | cons p rest ih =>
    intro s hgen hrep hdec
    obtain ⟨img, himg⟩ := Option.isSome_iff_exists.mp (hdec p (List.mem_cons_self p rest))
    obtain ⟨s1, hs1, hstop⟩ :=
      ih { s with
            gen := some rest
            currentImagePath := some p
            outputBuffer := some img.data
            imageShape := img.shape }
        rfl hrep (fun q hq => hdec q (List.mem_cons_of_mem p hq))
    refine ⟨s1, ?_, hstop⟩
    show advanceN fs s (rest.length + 1 + 1) = _
    rw [advanceN_succ_ok fs s _ (rest.length + 1) true (readImage_cons fs s p rest hgen img himg),
      hs1]
    simp [List.replicate_succ]

theorem advanceN_wrap_repeat (fs : Filesystem) (p0 : List Char) (tail0 : List (List Char))
    (hroot : fs.rootIsDir = true)
    (hfull : imageFileNameGenerator fs.entries [] = p0 :: tail0)
    (hdec0 : (fs.decode p0).isSome) :
    ∀ (rest : List (List Char)) (s : ServerState), s.gen = some rest → s.repeatFlag = true →
      (∀ p ∈ rest, (fs.decode p).isSome) →
      ∃ s2, advanceN fs s (rest.length + 1) = .ok (List.replicate (rest.length + 1) true) s2 ∧
        s2.currentImagePath = some p0 := by
  intro rest
  induction rest with
  | nil =>
    intro s hgen hrep _
    obtain ⟨img, himg⟩ := Option.isSome_iff_exists.mp hdec0
    refine ⟨{ s with
      gen := some tail0
      currentImagePath := some p0
      outputBuffer := some img.data
      imageShape := img.shape }, ?_, ?_⟩
    · show advanceN fs s (0 + 1) = _
      rw [advanceN_succ, readImage_exhausted_repeat fs s hgen hrep hroot p0 tail0 hfull img himg]
      rfl
    · rfl
  | cons q qtail ih =>
    intro s hgen hrep hdec
    obtain ⟨img, himg⟩ := Option.isSome_iff_exists.mp (hdec q (List.mem_cons_self q qtail))
    obtain ⟨s2, hs2, hcur⟩ :=
      ih { s with
            gen := some qtail
            currentImagePath := some q
            outputBuffer := some img.data
            imageShape := img.shape }
        rfl hrep (fun r hr => hdec r (List.mem_cons_of_mem q hr))
    refine ⟨s2, ?_, hcur⟩
    show advanceN fs s (qtail.length + 1 + 1) = _
    rw [advanceN_succ_ok fs s _ (qtail.length + 1) true (readImage_cons fs s q qtail hgen img himg),
      hs2]
    simp [List.replicate_succ]

/-- C5: for a sequencer with `repeat=false` over a root whose walk yields
exactly K matching images (all decodable), the first K advance operations
each succeed (return `True`), and the (K+1)-th advance fails (returns
`False`), signalling end-of-stream, and sets the server's stop-requested
flag, so the serving loops transition toward stop. -/
theorem sequencer_exhaustion_stops_server (fs : Filesystem) (s : ServerState)
    (l : List (List Char)) (hgen : s.gen = some l) (hrep : s.repeatFlag = false)
    (hdec : ∀ p ∈ l, (fs.decode p).isSome) :
    ∃ s1, advanceN fs s (l.length + 1) =
      .ok (List.replicate l.length true ++ [false]) s1 ∧ s1.stopRequested = true :=
  advanceN_exhaust_noRepeat fs l s hgen hrep hdec

/-- C6: for a sequencer with `repeat=true` over an unchanged root whose walk
yields K >= 1 matching images (all decodable), the (K+1)-th advance succeeds
and yields the same file path as the first advance, by reconstructing the
lazy walk from the root and pulling its first element. -/
theorem sequencer_repeat_wraps_to_first (fs : Filesystem) (s : ServerState)
    (l : List (List Char)) (hroot : fs.rootIsDir = true)
    (hfull : imageFileNameGenerator fs.entries [] = l) (hgen : s.gen = some l)
    (hrep : s.repeatFlag = true) (hne : l ≠ [])
    (hdec : ∀ p ∈ l, (fs.decode p).isSome) :
    ∃ s1 s2, advanceN fs s 1 = .ok [true] s1 ∧
      advanceN fs s (l.length + 1) = .ok (List.replicate (l.length + 1) true) s2 ∧
      s1.currentImagePath = l.head? ∧ s2.currentImagePath = l.head? := by
  obtain ⟨p0, tail0, rfl⟩ := List.exists_cons_of_ne_nil hne
  obtain ⟨img, himg⟩ := Option.isSome_iff_exists.mp (hdec p0 (List.mem_cons_self p0 tail0))
  obtain ⟨s2, hs2, hcur2⟩ :=
    advanceN_wrap_repeat fs p0 tail0 hroot hfull (hdec p0 (List.mem_cons_self p0 tail0))
      (p0 :: tail0) s hgen hrep hdec
  refine ⟨{ s with
      gen := some tail0
      currentImagePath := some p0
      outputBuffer := some img.data
      imageShape := img.shape }, s2, ?_, ?_, ?_, ?_⟩
  · show advanceN fs s (0 + 1) = _
    rw [advanceN_succ, readImage_cons fs s p0 tail0 hgen img himg]
    rfl
  · exact hs2
  · rfl
  · simpa using hcur2

theorem sequencer_exhaustion_stops_server_witness :
    (srvTwoNoRepeat.gen = some (imageFileNameGenerator fsTwoImages.entries []) ∧
      srvTwoNoRepeat.repeatFlag = false ∧
      ∀ p ∈ imageFileNameGenerator fsTwoImages.entries [], (fsTwoImages.decode p).isSome) ∧
    ∃ s1, advanceN fsTwoImages srvTwoNoRepeat
        ((imageFileNameGenerator fsTwoImages.entries []).length + 1) =
      .ok (List.replicate (imageFileNameGenerator fsTwoImages.entries []).length true ++ [false]) s1 ∧
      s1.stopRequested = true :=
  ⟨⟨rfl, rfl, by decide⟩,
    sequencer_exhaustion_stops_server fsTwoImages srvTwoNoRepeat _ rfl rfl (by decide)⟩

theorem sequencer_repeat_wraps_to_first_witness :
    (fsTwoImages.rootIsDir = true ∧ srvTwoRepeat.repeatFlag = true ∧
      imageFileNameGenerator fsTwoImages.entries [] ≠ [] ∧
      ∀ p ∈ imageFileNameGenerator fsTwoImages.entries [], (fsTwoImages.decode p).isSome) ∧
    ∃ s1 s2, advanceN fsTwoImages srvTwoRepeat 1 = .ok [true] s1 ∧
      advanceN fsTwoImages srvTwoRepeat ((imageFileNameGenerator fsTwoImages.entries []).length + 1) =
        .ok (List.replicate ((imageFileNameGenerator fsTwoImages.entries []).length + 1) true) s2 ∧
      s1.currentImagePath = (imageFileNameGenerator fsTwoImages.entries []).head? ∧
      s2.currentImagePath = (imageFileNameGenerator fsTwoImages.entries []).head? :=
  ⟨⟨rfl, rfl, by decide, by decide⟩,
    sequencer_repeat_wraps_to_first fsTwoImages srvTwoRepeat _ rfl rfl rfl rfl
      (by decide) (by decide)⟩

/-! ## Server lifecycle and connection handling theorems -/

/-- C2 (failing-input evaluation): with `repeat=true` over a root that yields
no matching images, `start_server` lets the second `next()` call's
`StopIteration` escape instead of returning `False`; with a first image that
fails to decode, the decoding exception escapes likewise.  The accept-loop
thread is never started in either case, but no failure value is returned.
Only the `repeat=false` empty-root case returns `False` as documented. -/
theorem startServer_raises_instead_of_false :
    startServer fsEmptyRoot srvFreshRepeat =
      .raised .stopIterationExn { srvFreshRepeat with gen := some [] } ∧
    startServer fsBadImage srvFreshNoRepeat =
      .raised .decodeExn { srvFreshNoRepeat with
        gen := some []
        currentImagePath := some "root/a.jpg".toList } ∧
    startServer fsEmptyRoot srvFreshNoRepeat =
      .returned false { srvFreshNoRepeat with
        gen := some []
        stopRequested := true } false :=
  ⟨rfl, rfl, rfl⟩

/-- C1 (failing-input evaluation): with `frame_rate = 1` (interval 1 s) and
the connection opened at time 1 (so the pacing clock starts at 0), a first
`get_frame` at time 1 is served at time 1, and a second `get_frame` half a
second later is also served immediately: the pacing clock returned by the
`get_frame` branch is unchanged (the source never assigns `last_frame_time`
after sending a frame), so the elapsed time is measured from the connection
start rather than from the last frame actually sent, and the two consecutive
frames go out 1/2 < 1/frame_rate seconds apart with no sleep. -/
theorem getFrame_pacing_clock_never_updated :
    initialLastFrameTime 1 srvPaced = 0 ∧
    handleClientStep fsOneImage srvPaced 0 (.request ⟨"get_frame"⟩ 1) =
      .next srvPaced 0 (some 1) ∧
    handleClientStep fsOneImage srvPaced 0 (.request ⟨"get_frame"⟩ (3 / 2)) =
      .next srvPaced 0 (some (3 / 2)) ∧
    (3 / 2 : ℚ) - 1 < 1 / srvPaced.frameRate := by
  obtain ⟨v, hv⟩ : ∃ v, writeImageAndHeaderToClient srvPaced = some v := ⟨_, rfl⟩
  have hfr : srvPaced.frameRate = 1 := rfl
  refine ⟨?_, ?_, ?_, ?_⟩
  · show (1 : ℚ) - 1 / srvPaced.frameRate = 0
    rw [hfr]
    norm_num
  · simp only [handleClientStep, hv]
    rw [hfr]
    norm_num
  · simp only [handleClientStep, hv]
    rw [hfr]
    norm_num
  · rw [hfr]
    norm_num

/-- C7: per-connection failures (read timeout, broken pipe, connection reset,
any other handler exception, orderly client close) end at most the affected
connection and leave the server state -- in particular the global
stop-requested flag -- untouched, so the accept loop keeps running; whereas a
bind/listen error during server startup does set the global stop flag. -/
theorem connection_failures_never_set_stop_flag (fs : Filesystem) (s : ServerState) (lft : ℚ) :
    handleClientStep fs s lft .readTimeout = .next s lft none ∧
    handleClientStep fs s lft .brokenPipe = .stop s ∧
    handleClientStep fs s lft .connectionReset = .stop s ∧
    handleClientStep fs s lft .otherException = .stop s ∧
    handleClientStep fs s lft .clientClosedConn = .stop s ∧
    (serverLoopBindPhase false s).1.stopRequested = true ∧
    (serverLoopBindPhase true s).1 = s :=
  ⟨rfl, rfl, rfl, rfl, rfl, rfl, rfl⟩

/-- C9: a successfully handled `next_image` request resets the pacing clock
to the current time `t` (in addition to advancing the sequencer), so the
`get_frame` that follows at time `t2 < t + 1/frame_rate` is paced as if a
frame had been sent at `t`: it goes out only at `t + 1/frame_rate`, delayed
by up to a full interval even though no frame was sent in between. -/
theorem nextImage_resets_pacing_clock (fs : Filesystem) (s s1 : ServerState) (lft t t2 : ℚ)
    (hread : readImageFromGenerator fs s = .ok true s1)
    (hwrite : writeImageAndHeaderToClient s1 ≠ none)
    (hlt : t2 - t < 1 / s1.frameRate) :
    handleClientStep fs s lft (.request ⟨"next_image"⟩ t) = .next s1 t none ∧
    handleClientStep fs s1 t (.request ⟨"get_frame"⟩ t2) =
      .next s1 t (some (t + 1 / s1.frameRate)) := by
  obtain ⟨v, hv⟩ := Option.ne_none_iff_exists.mp hwrite
  constructor
  · simp [handleClientStep, hread]
  · simp [handleClientStep, ← hv]
    have hlt2 : t2 - t < s1.frameRate⁻¹ := by rwa [one_div] at hlt
    rw [if_pos hlt2]
    ring

theorem nextImage_resets_pacing_clock_witness :
    (readImageFromGenerator fsOneImage srvReady = .ok true srvAfterNext ∧
      writeImageAndHeaderToClient srvAfterNext ≠ none ∧
      (21 / 2 : ℚ) - 10 < 1 / srvAfterNext.frameRate) ∧
    (handleClientStep fsOneImage srvReady 0 (.request ⟨"next_image"⟩ 10) =
        .next srvAfterNext 10 none ∧
      handleClientStep fsOneImage srvAfterNext 10 (.request ⟨"get_frame"⟩ (21 / 2)) =
        .next srvAfterNext 10 (some (10 + 1 / srvAfterNext.frameRate))) := by
  have hread : readImageFromGenerator fsOneImage srvReady = .ok true srvAfterNext := rfl
  have hwrite : writeImageAndHeaderToClient srvAfterNext ≠ none := by
    obtain ⟨v, hv⟩ : ∃ v, writeImageAndHeaderToClient srvAfterNext = some v := ⟨_, rfl⟩
    rw [hv]
    exact Option.some_ne_none v
  have hfr : srvAfterNext.frameRate = 1 := rfl
  have hlt : (21 / 2 : ℚ) - 10 < 1 / srvAfterNext.frameRate := by
    rw [hfr]
    norm_num
  exact ⟨⟨hread, hwrite, hlt⟩,
    nextImage_resets_pacing_clock fsOneImage srvReady srvAfterNext 0 10 (21 / 2)
      hread hwrite hlt⟩

/-- C10: every frame header the server emits declares
`channel_format = "RGB8"` regardless of the recorded image shape, and every
server-info response declares `camera_pixel_format` equal to the RGB8 integer
code; the MONO8 and BGR8 values are never sent. -/
theorem server_always_declares_RGB8 (s : ServerState) :
    (∀ hdr chunks, writeImageAndHeaderToClient s = some (hdr, chunks) →
      hdr.channel_format = "RGB8" ∧ hdr.channel_format ≠ "MONO8" ∧
      hdr.channel_format ≠ "BGR8") ∧
    (writeServerInfoToClient s).camera_pixel_format = PixelFormatEnum.val .RGB8 ∧
    (writeServerInfoToClient s).camera_pixel_format ≠ PixelFormatEnum.val .MONO8 ∧
    (writeServerInfoToClient s).camera_pixel_format ≠ PixelFormatEnum.val .BGR8 := by
  refine ⟨?_, rfl, by simp [writeServerInfoToClient, PixelFormatEnum.val],
    by simp [writeServerInfoToClient, PixelFormatEnum.val]⟩
  intro hdr chunks h
  unfold writeImageAndHeaderToClient at h
  cases hb : s.outputBuffer with
  | none => rw [hb] at h; simp at h
  | some buf =>
    cases hp : s.currentImagePath with
    | none => rw [hb, hp] at h; simp at h
    | some p =>
      rw [hb, hp] at h
      simp only [Option.some.injEq, Prod.mk.injEq] at h
      obtain ⟨hh, _⟩ := h
      rw [← hh]
      exact ⟨rfl, by simp, by simp⟩

theorem server_always_declares_RGB8_witness :
    (∃ hdr chunks, writeImageAndHeaderToClient srvPaced = some (hdr, chunks) ∧
      hdr.channel_format = "RGB8" ∧ hdr.channel_format ≠ "MONO8" ∧
      hdr.channel_format ≠ "BGR8") ∧
    (writeServerInfoToClient srvPaced).camera_pixel_format = PixelFormatEnum.val .RGB8 :=
  ⟨⟨_, _, rfl, (server_always_declares_RGB8 srvPaced).1 _ _ rfl⟩,
    (server_always_declares_RGB8 srvPaced).2.1⟩

/-! ## Client lifecycle theorems -/

/-- C3 counterexample: from the `Connected` state, `deinitialize_camera` does
not clear the streaming flag, and the subsequent `start_camera_streaming`
fails with "Streaming already started." instead of succeeding. -/
theorem deinitCamera_keeps_streaming_cex :
    (deinitCamera connectedClient).streaming = true ∧
    (startCameraStreaming (deinitCamera connectedClient) true).1 =
      some .streamingAlreadyStarted :=
  ⟨rfl, rfl⟩

/-- C3 (amended): `deinitialize_camera` closes the socket and resets the
cached camera metadata, but leaves the streaming flag unchanged; hence for a
client that was streaming, a subsequent `start_camera_streaming` returns the
already-streaming error and changes nothing, rather than succeeding.  Only
`stop_camera_streaming` clears the flag and makes a restart possible. -/
theorem deinitCamera_closes_socket_keeps_streaming (c : ClientState)
    (hconn : c.socketOpen = true) :
    (deinitCamera c).socketOpen = false ∧
    (deinitCamera c).streaming = c.streaming ∧
    (c.streaming = true → ∀ connectSucceeds,
      startCameraStreaming (deinitCamera c) connectSucceeds =
        (some .streamingAlreadyStarted, deinitCamera c)) := by
  refine ⟨rfl, rfl, ?_⟩
  intro hs connectSucceeds
  simp [startCameraStreaming, deinitCamera, closeSocket, hs]

theorem deinitCamera_closes_socket_keeps_streaming_witness :
    connectedClient.socketOpen = true ∧
    ((deinitCamera connectedClient).socketOpen = false ∧
      (deinitCamera connectedClient).streaming = connectedClient.streaming ∧
      (connectedClient.streaming = true → ∀ connectSucceeds,
        startCameraStreaming (deinitCamera connectedClient) connectSucceeds =
          (some .streamingAlreadyStarted, deinitCamera connectedClient))) :=
  ⟨rfl, deinitCamera_closes_socket_keeps_streaming connectedClient rfl⟩

end CameraUtils
